import Mathlib

set_option maxHeartbeats 1000000
set_option maxRecDepth 4000

/-!
Verification development for the raad download engine
(src/src/core/downloadertask.cpp, src/src/core/downloadmanager.cpp,
src/src/utils/download_utils.cpp).  Each definition is a shallow embedding of
the C++ function named in its doc comment; qint64 quantities that the source
keeps non-negative are modelled as Nat, quantities that can be negative
(retry overrides, which use -1 as a sentinel) as Int.
-/

namespace Raad

/-- Task lifecycle states, mirroring the enum DownloaderTask::State
(Idle, Downloading, Paused, Finished, Canceled). -/
inductive TState
  | idle
  | downloading
  | paused
  | finished
  | canceled
deriving DecidableEq

/-- The strings produced by DownloaderTask::stateString (downloadertask.cpp
lines 1227-1239), as an enumeration. -/
inductive StateStr
  | queued
  | active
  | pausedStr
  | done
  | error
  | canceledStr
deriving DecidableEq

/-- Embedding of DownloaderTask::stateString (downloadertask.cpp lines
1227-1239): Finished with the error flag reads as Error, otherwise the
state maps directly. -/
def stateString (st : TState) (anyError : Bool) : StateStr :=
  if anyError = true ∧ st = TState.finished then StateStr.error
  else
    match st with
    | TState.idle => StateStr.queued
    | TState.downloading => StateStr.active
    | TState.paused => StateStr.pausedStr
    | TState.finished => StateStr.done
    | TState.canceled => StateStr.canceledStr

/-! ## Path utilities (src/src/utils/download_utils.cpp)

The filesystem is modelled as the list of names of existing files in the
(single) target directory; `QFileInfo::completeBaseName` /
`completeSuffix` split a file name at its last / first dot.
`normalizeFilePath` only rewrites file:// URLs (QUrl decoding, external to
this model), so it is the identity on the plain local paths modelled here. -/

/-- Split a character list at its last dot: `some (before, after)` when a
dot occurs, preferring the rightmost one. -/
def lastDotSplit : List Char → Option (List Char × List Char)
  | [] => none
  | c :: cs =>
    match lastDotSplit cs with
    | some (b, suf) => some (c :: b, suf)
    | none => if c = '.' then some ([], cs) else none

/-- Split a character list at its first dot. -/
def firstDotSplit : List Char → Option (List Char × List Char)
  | [] => none
  | c :: cs =>
    if c = '.' then some ([], cs)
    else
      match firstDotSplit cs with
      | some (b, suf) => some (c :: b, suf)
      | none => none

/-- QFileInfo::completeBaseName: everything before the last dot (the whole
name when there is no dot). -/
def completeBaseName (name : String) : String :=
  match lastDotSplit name.toList with
  | some (b, _) => String.mk b
  | none => name

/-- QFileInfo::completeSuffix: everything after the first dot (empty when
there is no dot). -/
def completeSuffix (name : String) : String :=
  match firstDotSplit name.toList with
  | some (_, suf) => String.mk suf
  | none => ""

/-- The existsCandidate lambda of raad::utils::uniqueFilePath
(download_utils.cpp lines 137-139): a candidate is taken when the file or
its ".part" sibling exists. -/
def existsCandidate (fs : List String) (candidate : String) : Bool :=
  fs.contains candidate || fs.contains (candidate ++ ".part")

/-- The candidate name built in the loop of uniqueFilePath
(download_utils.cpp lines 143-147): insert the counter i before the
complete suffix, or append it when there is no suffix. -/
def candidateName (base suffix : String) (i : Nat) : String :=
  if suffix = "" then base ++ " (" ++ toString i ++ ")"
  else base ++ " (" ++ toString i ++ ")." ++ suffix

/-- The search loop of uniqueFilePath (`for i = 1; i < 10000; ++i`),
expressed with explicit fuel: try indices i, i+1, ... while candidates are
taken; `none` when the fuel (the remaining loop iterations) runs out. -/
def findFreeName (fs : List String) (base suffix : String) : Nat → Nat → Option String
  | _, 0 => none
  | i, fuel + 1 =>
    let cand := candidateName base suffix i
    if existsCandidate fs cand then findFreeName fs base suffix (i + 1) fuel
    else some cand

/-- Embedding of raad::utils::uniqueFilePath (download_utils.cpp lines
129-151): empty paths are returned as is; a path whose candidate set is
free is returned unchanged; otherwise the first free " (n)" variant is
returned, falling back to the input after 9999 attempts (the sentinel). -/
def uniqueFilePath (fs : List String) (path : String) : String :=
  if path = "" then path
  else if existsCandidate fs path = false then path
  else
    match findFreeName fs (completeBaseName path) (completeSuffix path) 1 9999 with
    | some cand => cand
    | none => path

/-! ## Schedule window (src/src/core/downloadmanager.cpp) -/

/-- Embedding of DownloadManager::isWithinSchedule (downloadmanager.cpp
lines 1841-1852); `current` is the current minute of day
(now.hour()*60 + now.minute()). -/
def isWithinSchedule (scheduleEnabled : Bool) (startMinutes endMinutes current : Nat) : Bool :=
  if scheduleEnabled = false then true
  else if startMinutes = endMinutes then true
  else if startMinutes < endMinutes then
    decide (startMinutes ≤ current) && decide (current < endMinutes)
  else
    decide (startMinutes ≤ current) || decide (current < endMinutes)

/-- Embedding of DownloadManager::isQueueAllowed (downloadmanager.cpp lines
1854-1859): blocked outside an enabled schedule window, or when an enabled
positive quota is reached. -/
def isQueueAllowed (scheduleEnabled : Bool) (startMinutes endMinutes current : Nat)
    (quotaEnabled : Bool) (quotaBytes downloadedToday : Nat) : Bool :=
  if scheduleEnabled && !(isWithinSchedule scheduleEnabled startMinutes endMinutes current) then
    false
  else if quotaEnabled && decide (0 < quotaBytes) && decide (quotaBytes ≤ downloadedToday) then
    false
  else true

/-! ## Segmentation decision (DownloaderTask::start, downloadertask.cpp lines 387-456) -/

/-- Download mode chosen by the HEAD-finished handler: a single stream
(with the value of m_useRange and the resume argument passed to
startSingleStream), or a segmented download with an effective segment
count. -/
inductive StreamMode
  | single (useRange : Bool) (resumeArg : Bool)
  | segmented (count : Nat)
deriving DecidableEq

/-- Outcome of the segmentation decision: the total size recorded
(m_totalSize), the resulting m_useRange, and the chosen mode. -/
structure HeadDecision where
  totalSize : Int
  useRange : Bool
  mode : StreamMode
deriving DecidableEq

/-- One mebibyte, as in the literals 4 * 1024 * 1024 etc. of the source. -/
def MiB : Int := 1024 * 1024

/-- Modelled from the spec: the initial value of the member m_useRange.
Its in-class initializer lives in the module interface of
raad.core.downloadertask, which is not under src/; the spec's decision
table (row "configured segments = 1" giving Range resume) and its
HEAD-failure rule ("fall through to single-stream with Range resume
enabled", matching the explicit `m_useRange = true` on that path) fix the
fresh-task value as true. -/
def useRangeInitial : Bool := true

/-- Embedding of the segmentation decision in the HEAD-finished handler of
DownloaderTask::start (downloadertask.cpp lines 387-414).  `clValid` is
cl.isValid(), `cl` the parsed Content-Length, `acceptRangesIsBytes`
whether the Accept-Ranges header lower-cases to bytes, `segments` the
configured m_segments (>= 1 by the constructor), `useRange0` the value of
m_useRange on entry, `hasExistingFile` the flag captured at the top of
start(). -/
def headDecision (clValid : Bool) (cl : Int) (acceptRangesIsBytes : Bool)
    (segments : Nat) (useRange0 : Bool) (hasExistingFile : Bool) : HeadDecision :=
  if clValid = false ∨ cl ≤ 0 then
    { totalSize := 0, useRange := false, mode := StreamMode.single false false }
  else
    let totalSize := cl
    let useRange := if acceptRangesIsBytes then useRange0 else false
    if useRange = false ∨ segments = 1 then
      { totalSize := totalSize, useRange := useRange,
        mode := StreamMode.single useRange hasExistingFile }
    else
      let segCount : Nat :=
        if 0 < totalSize then
          if totalSize < 4 * MiB then 1
          else if totalSize < 32 * MiB then min 2 segments
          else if totalSize < 128 * MiB then min 4 segments
          else segments
        else segments
      { totalSize := totalSize, useRange := useRange,
        mode := StreamMode.segmented segCount }

/-- Whether a decided mode actually resumes with Range: startSingleStream
sets m_resumeSingle = resume && m_useRange (downloadertask.cpp line 480). -/
def singleResumable : StreamMode → Bool
  | StreamMode.single useRange resumeArg => useRange && resumeArg
  | StreamMode.segmented _ => false

/-! ## Segment layout and part-file reuse (DownloaderTask::start, lines 416-443) -/

/-- Segment start offset: `s.start = i * segSize` with
`segSize = m_totalSize / segCount` (downloadertask.cpp lines 418-422). -/
def segStart (total segCount i : Nat) : Nat :=
  i * (total / segCount)

/-- Segment end offset (inclusive): the last segment ends at total - 1,
the others at (i+1)*segSize - 1 (downloadertask.cpp lines 423-425). -/
def segEnd (total segCount i : Nat) : Nat :=
  if i = segCount - 1 then total - 1
  else (i + 1) * (total / segCount) - 1

/-- Length of segment i, `s.end - s.start + 1`. -/
def segLen (total segCount i : Nat) : Nat :=
  segEnd total segCount i - segStart total segCount i + 1

/-- Embedding of the per-segment initialisation (downloadertask.cpp lines
427-434).  Returns (initial downloaded count, whether the prior part file
was removed): when partial segments were detected and this segment's part
file exists, downloaded starts at `qMin(info.size(), segLen)` and the file
is kept; otherwise the (possibly stale) part file is removed and
downloaded starts at 0. -/
def segInitState (anyPriorParts partFileExists : Bool) (partSize segLenBytes : Nat) :
    Nat × Bool :=
  if anyPriorParts && partFileExists then (min partSize segLenBytes, false)
  else (0, true)

/-! ## Throttled write processor
(DownloaderTask::processSingleBuffer, downloadertask.cpp lines 638-682, and
DownloaderTask::processSegmentBuffer, lines 820-864; the two share the
per-task throttle window and are arithmetically identical). -/

/-- Result of one processor run: bytes written now, the window byte
counter and buffer length afterwards, whether the 1-second window was
restarted, and the reschedule delay (ms) when another run was queued. -/
structure ThrottleResult where
  written : Nat
  throttleBytes : Nat
  bufferLen : Nat
  windowRestarted : Bool
  rescheduleMs : Option Nat
deriving DecidableEq

/-- The elapsed-time clamp of the processors (lines 648-649 and 829-830):
a zero elapsed time is read as 1 ms. -/
def throttleElapsed (elapsedMsIn : Nat) : Nat :=
  if elapsedMsIn = 0 then 1 else elapsedMsIn

/-- The allowed-bytes computation of the processors (lines 650 and 831):
`maxSpeed * elapsedMs / 1000 - m_throttleBytes` under a positive cap, the
whole buffer otherwise. -/
def throttleAllowed (maxSpeed elapsedMs throttleBytes bufferLen : Nat) : Int :=
  if 0 < maxSpeed then (((maxSpeed * elapsedMs / 1000 : Nat) : Int) - (throttleBytes : Int))
  else (bufferLen : Int)

/-- Embedding of one run of the throttled processor past its entry guards
(open file, not already processing, non-empty buffer, state Downloading).
`maxSpeed` is the effective cap (0 = unlimited), `elapsedMsIn` the
throttle-window age in ms, `throttleBytes` the bytes already written in
the window, `bufferLen` the pending buffer size.  The file write is
modelled as succeeding in full, as the source requests. -/
def processBuffer (maxSpeed elapsedMsIn throttleBytes bufferLen : Nat) : ThrottleResult :=
  let elapsedMs := throttleElapsed elapsedMsIn
  let allowed : Int := throttleAllowed maxSpeed elapsedMs throttleBytes bufferLen
  if allowed ≤ 0 then
    { written := 0, throttleBytes := throttleBytes, bufferLen := bufferLen,
      windowRestarted := false, rescheduleMs := some 50 }
  else
    let toWrite := min allowed.toNat bufferLen
    let bufferLen2 := bufferLen - toWrite
    let restarted := decide (1000 ≤ elapsedMs)
    { written := toWrite,
      throttleBytes := if restarted then 0 else throttleBytes + toWrite,
      bufferLen := bufferLen2,
      windowRestarted := restarted,
      rescheduleMs := if bufferLen2 = 0 then none else some 10 }

/-! ## Total progress and the single-stream resume paths
(DownloaderTask::totalDownloaded, lines 1219-1225; the metaDataChanged
handler of startSingleStream, lines 523-574). -/

/-- The per-task progress counters: m_singleWritten and the per-segment
downloaded counts. -/
structure ProgressState where
  singleWritten : Nat
  segDownloaded : List Nat
deriving DecidableEq

/-- Embedding of DownloaderTask::totalDownloaded (lines 1219-1225): the
sum of segment downloaded counts plus the single-stream written count. -/
def totalDownloaded (s : ProgressState) : Nat :=
  s.segDownloaded.sum + s.singleWritten

/-- Processor write on the single stream: m_singleWritten += written
(line 663). -/
def processWriteSingle (written : Nat) (s : ProgressState) : ProgressState :=
  { s with singleWritten := s.singleWritten + written }

/-- Add w to the i-th entry of a list (out-of-range writes change
nothing). -/
def bumpAt : List Nat → Nat → Nat → List Nat
  | [], _, _ => []
  | v :: rest, 0, w => (v + w) :: rest
  | v :: rest, i + 1, w => v :: bumpAt rest i w

/-- Processor write on segment i: s->downloaded += written (line 844). -/
def processWriteSegment (i written : Nat) (s : ProgressState) : ProgressState :=
  { s with segDownloaded := bumpAt s.segDownloaded i written }

/-- Embedding of the single-stream metaDataChanged handler restricted to
the fields it touches here (downloadertask.cpp lines 523-574): given
m_resumeSingle, the HTTP status and the existing temp size, it returns the
updated progress state, the new m_resumeSingle, and the resume warning set
(if any).  Status >= 400 while resuming aborts and restarts from 0;
status 200 (any non-206) while resuming truncates the temp and restarts
the counter at 0; otherwise nothing changes. -/
def singleMetaData (resumeSingle : Bool) (status existingSize : Nat) (s : ProgressState) :
    ProgressState × Bool × Option String :=
  if resumeSingle = false then (s, resumeSingle, none)
  else if 400 ≤ status then
    ({ s with singleWritten := 0 }, false, some "Resume rejected; restarting")
  else if status ≠ 206 then
    ({ s with singleWritten := 0 }, false,
      if 0 < existingSize then some "Resume not supported; restarted" else none)
  else (s, resumeSingle, none)

/-! ## Task operations with signal traces
(DownloaderTask, downloadertask.cpp).  Each operation is one atomic step
of the single-threaded event loop; its return value pairs the updated task
with the ordered list of stateChanged / finished emissions, each recorded
together with the value of m_state at the moment the signal is emitted.
Auxiliary emissions (pauseReasonChanged, pausedAtChanged, speedChanged,
etaChanged, progress, log/history signals) and fields not relevant to the
finished/canceled ordering are omitted. -/

/-- Signals relevant to the finished-after-canceled ordering. -/
inductive Sig
  | stateChangedSig
  | finishedSig (ok : Bool)
deriving DecidableEq

/-- One emission: the signal and the task state at emission time. -/
structure Emit where
  sig : Sig
  stateAt : TState
deriving DecidableEq

/-- The task fields the traced operations read or write. -/
structure CTask where
  tstate : TState
  anyError : Bool
deriving DecidableEq

/-- Embedding of DownloaderTask::start (lines 289-345) up to issuing the
HEAD request: a no-op unless Idle; an invalid current URL finishes with
error immediately; otherwise the state becomes Downloading. -/
def startOp (t : CTask) (urlValid : Bool) : CTask × List Emit :=
  if t.tstate ≠ TState.idle then (t, [])
  else if urlValid = false then
    ({ t with anyError := true, tstate := TState.finished },
      [⟨Sig.stateChangedSig, TState.finished⟩, ⟨Sig.finishedSig false, TState.finished⟩])
  else
    ({ t with anyError := false, tstate := TState.downloading },
      [⟨Sig.stateChangedSig, TState.downloading⟩])

/-- Embedding of DownloaderTask::pause (lines 927-991): a no-op unless
Downloading; otherwise aborts replies, closes files (not tracked) and
moves to Paused. -/
def pauseOp (t : CTask) : CTask × List Emit :=
  if t.tstate ≠ TState.downloading then (t, [])
  else ({ t with tstate := TState.paused }, [⟨Sig.stateChangedSig, TState.paused⟩])

/-- Embedding of DownloaderTask::resume (lines 1087-1102): a no-op unless
Paused; otherwise sets Idle and re-enters start() directly. -/
def resumeOp (t : CTask) (urlValid : Bool) : CTask × List Emit :=
  if t.tstate ≠ TState.paused then (t, [])
  else startOp { t with tstate := TState.idle } urlValid

/-- Embedding of DownloaderTask::cancel (lines 1147-1165) plus the
emission at the end of cleanup(true) (line 1292): a no-op in Finished or
Canceled; otherwise the state becomes Canceled, stateChanged is emitted,
and cleanup(true) ends by emitting finished(false) — both emissions happen
with m_state already equal to Canceled. -/
def cancelOp (t : CTask) : CTask × List Emit :=
  if t.tstate = TState.finished ∨ t.tstate = TState.canceled then (t, [])
  else
    ({ t with tstate := TState.canceled },
      [⟨Sig.stateChangedSig, TState.canceled⟩, ⟨Sig.finishedSig false, TState.canceled⟩])

/-- Embedding of DownloaderTask::onSegmentFinished (lines 866-894).
`segs` lists (downloaded, length) for each segment; `mergeOk` abstracts
mergeSegments().  Nothing happens unless Downloading and every segment is
complete; then an error flag or a merge failure finishes with error,
otherwise with success. -/
def onSegmentFinishedOp (t : CTask) (segs : List (Nat × Nat)) (mergeOk : Bool) :
    CTask × List Emit :=
  if t.tstate ≠ TState.downloading then (t, [])
  else if segs.any (fun p => decide (p.1 < p.2)) then (t, [])
  else if t.anyError then
    ({ t with tstate := TState.finished },
      [⟨Sig.stateChangedSig, TState.finished⟩, ⟨Sig.finishedSig false, TState.finished⟩])
  else if mergeOk = false then
    ({ t with anyError := true, tstate := TState.finished },
      [⟨Sig.stateChangedSig, TState.finished⟩, ⟨Sig.finishedSig false, TState.finished⟩])
  else
    ({ t with tstate := TState.finished },
      [⟨Sig.stateChangedSig, TState.finished⟩, ⟨Sig.finishedSig true, TState.finished⟩])

/-- Embedding of the per-segment finished handler (lines 790-817):
dropped when the captured reply no longer matches the stored one; records
a transport error only while Downloading; returns without side effects in
Paused or Canceled; otherwise falls through to onSegmentFinished. -/
def segmentFinishedOp (t : CTask) (replyMatches replyError : Bool)
    (segs : List (Nat × Nat)) (mergeOk : Bool) : CTask × List Emit :=
  if replyMatches = false then (t, [])
  else
    let t1 := if t.tstate = TState.downloading ∧ replyError = true
      then { t with anyError := true } else t
    if t1.tstate = TState.paused ∨ t1.tstate = TState.canceled then (t1, [])
    else onSegmentFinishedOp t1 segs mergeOk

/-- Embedding of the single-stream finished handler (lines 598-635):
dropped on reply mismatch; records a transport error only while
Downloading; returns in Paused or Canceled; otherwise performs the
temp-to-final rename (renameNeeded abstracts the m_useSingleTemp and
path checks, renameFails its failure), finishes, and emits
finished(!m_anyError). -/
def singleFinishedOp (t : CTask) (replyMatches replyError renameNeeded renameFails : Bool) :
    CTask × List Emit :=
  if replyMatches = false then (t, [])
  else
    let t1 := if t.tstate = TState.downloading ∧ replyError = true
      then { t with anyError := true } else t
    if t1.tstate = TState.paused ∨ t1.tstate = TState.canceled then (t1, [])
    else
      let t2 := if renameNeeded = true ∧ renameFails = true
        then { t1 with anyError := true } else t1
      let t3 := { t2 with tstate := TState.finished }
      (t3, [⟨Sig.stateChangedSig, TState.finished⟩,
            ⟨Sig.finishedSig (!t3.anyError), TState.finished⟩])

/-! ## Cancel-time file removal
(DownloaderTask::cancel → cleanup, downloadertask.cpp lines 1147-1165 and
1241-1293; single-stream path selection in startSingleStream, lines
482-486). -/

/-- Embedding of the m_useSingleTemp decision of startSingleStream (line
485): write to the ".part" temp when it exists or when the final file does
not exist yet; otherwise write directly into the final path. -/
def useSingleTempOf (hasTemp hasMain : Bool) : Bool :=
  hasTemp || !hasMain

/-- Embedding of the m_singleTempPath assignment of startSingleStream
(line 486). -/
def singleTempPathOf (filePath : String) (hasTemp hasMain : Bool) : String :=
  if useSingleTempOf hasTemp hasMain then filePath ++ ".part" else filePath

/-- File removals performed by DownloaderTask::cleanup (lines 1243-1288):
every segment temp file, then — in the single-stream branch — the single
temp path when m_useSingleTemp holds and the path is non-empty, otherwise
m_filePath itself. -/
def cleanupRemovals (segPaths : List String) (useSingleTemp : Bool)
    (singleTempPath filePath : String) : List String :=
  segPaths ++
    (if useSingleTemp && !(decide (singleTempPath = "")) then [singleTempPath]
     else [filePath])

/-- Embedding of DownloaderTask::cancel (lines 1147-1165) at the level of
file removals: a no-op in the terminal states; otherwise the state becomes
Canceled and cleanup(true) performs its removals. -/
def cancelRemovals (st : TState) (segPaths : List String) (useSingleTemp : Bool)
    (singleTempPath filePath : String) : TState × List String :=
  if st = TState.finished ∨ st = TState.canceled then (st, [])
  else (TState.canceled, cleanupRemovals segPaths useSingleTemp singleTempPath filePath)

/-! ## Mirror failover and the manager's finished handler
(DownloaderTask::advanceMirror, downloadertask.cpp lines 102-115;
DownloadManager::onTaskFinishedWrapper, downloadmanager.cpp lines
228-285). -/

/-- A mirror list entry: the raw string and whether QUrl(str).isValid()
holds (QUrl parsing is external; an empty string, for instance, is an
invalid QUrl). -/
structure MirrorUrl where
  str : String
  valid : Bool
deriving DecidableEq

/-- The task fields advanceMirror reads or writes. -/
structure MirrorState where
  mirrors : List MirrorUrl
  index : Nat
  url : String
  etag : String
  lastModified : String
deriving DecidableEq

/-- Embedding of DownloaderTask::advanceMirror (lines 102-115): fails on
an empty list or when no next entry exists; otherwise advances the index
and returns true, updating m_url and clearing the resume validators only
when the next entry is a valid URL. -/
def advanceMirror (ms : MirrorState) : Bool × MirrorState :=
  if ms.mirrors.isEmpty then (false, ms)
  else if ms.mirrors.length ≤ ms.index + 1 then (false, ms)
  else
    let idx := ms.index + 1
    let next := ms.mirrors.getD idx { str := "", valid := false }
    if next.valid then
      (true, { ms with index := idx, url := next.str, etag := "", lastModified := "" })
    else
      (true, { ms with index := idx })

/-- Outcome of DownloadManager::onTaskFinishedWrapper: the bulk-cancel
guard returns before any handling; Done runs post actions; Canceled only
toasts; Error either restarts on a switched mirror, schedules a delayed
restart with an incremented attempt counter, or surfaces a final error. -/
inductive FinishOutcome
  | ignoredBulk
  | handledDone
  | handledCanceled
  | errorMirrorRestart
  | errorRetryScheduled (newAttempts delaySec : Int)
  | errorFinal
  | handledOther
deriving DecidableEq

/-- Embedding of DownloadManager::onTaskFinishedWrapper (downloadmanager.cpp
lines 228-285) as a decision function.  `advanceOk` is the result of
t->advanceMirror(); the retry bound and delay fall back to the manager
defaults when the task overrides are negative; a restart is scheduled
after delaySec seconds only while attempts < maxRetries. -/
def onTaskFinishedWrapper (bulk : Bool) (st : StateStr) (advanceOk : Bool)
    (taskRetryMax taskRetryDelay mgrRetryMax mgrRetryDelay attempts : Int) : FinishOutcome :=
  if bulk then FinishOutcome.ignoredBulk
  else
    match st with
    | StateStr.done => FinishOutcome.handledDone
    | StateStr.canceledStr => FinishOutcome.handledCanceled
    | StateStr.error =>
      if advanceOk then FinishOutcome.errorMirrorRestart
      else
        let maxRetries := if 0 ≤ taskRetryMax then taskRetryMax else mgrRetryMax
        let delaySec := if 0 ≤ taskRetryDelay then taskRetryDelay else mgrRetryDelay
        if attempts < maxRetries then FinishOutcome.errorRetryScheduled (attempts + 1) delaySec
        else FinishOutcome.errorFinal
    | _ => FinishOutcome.handledOther

/-! ## Manager admission (DownloadManager::startQueued, downloadmanager.cpp
lines 364-397, resumeTask lines 744-751, DownloaderTask::resume lines
1087-1102).

Queues are identified by Nat ids; `allowed` abstracts
isQueueAllowed(info, now) at the instant of the call (its schedule/quota
internals are embedded separately above), and a queue id absent from the
list stands for the queue freshly created by the `createQueue` call in the
loop (default limits, schedule disabled, so allowed). -/

/-- A task as the admission loop sees it: its state, its queue assignment
(m_taskQueue), and whether its current URL is valid (so that start()
actually enters Downloading). -/
structure MTask where
  tstate : TState
  queueName : Nat
  urlValid : Bool
deriving DecidableEq

/-- A queue's admission-relevant data: maxConcurrent (0 = unset, falling
back to the global limit at use sites) and the abstracted
isQueueAllowed(info, now) verdict. -/
structure MQueue where
  qid : Nat
  maxConcurrentQ : Nat
  allowed : Bool
deriving DecidableEq

/-- The manager fields the admission loop reads. -/
structure Mgr where
  tasks : List MTask
  maxConcurrent : Nat
  queues : List MQueue
  pauseOnBattery : Bool
  onBattery : Bool
deriving DecidableEq

/-- Whether a task counts as running (DownloaderTask::isRunning, i.e.
state == Downloading). -/
def isRunningTask (t : MTask) : Bool :=
  decide (t.tstate = TState.downloading)

/-- The number of running tasks (the first loop of startQueued). -/
def runningCount (ts : List MTask) : Nat :=
  (ts.filter isRunningTask).length

/-- Whether a task is running and assigned to queue qid. -/
def inQueueRunning (qid : Nat) (t : MTask) : Bool :=
  isRunningTask t && decide (t.queueName = qid)

/-- The number of running tasks assigned to queue qid. -/
def runningInQueue (ts : List MTask) (qid : Nat) : Nat :=
  (ts.filter (inQueueRunning qid)).length

/-- Lookup in the runningPerQueue hash (missing keys read as 0, like
QHash::value(q, 0)). -/
def lookupQ : List (Nat × Nat) → Nat → Nat
  | [], _ => 0
  | (k, v) :: rest, q => if k = q then v else lookupQ rest q

/-- Increment a key of the runningPerQueue hash. -/
def bumpQ : List (Nat × Nat) → Nat → List (Nat × Nat)
  | [], q => [(q, 1)]
  | (k, v) :: rest, q => if k = q then (k, v + 1) :: rest else (k, v) :: bumpQ rest q

/-- The initial runningPerQueue hash built by the first loop of
startQueued (lines 366-374). -/
def buildPerQ : List MTask → List (Nat × Nat)
  | [] => []
  | t :: rest =>
    let acc := buildPerQ rest
    if isRunningTask t then bumpQ acc t.queueName else acc

/-- The effective per-queue concurrency limit (line 388):
info->maxConcurrent when positive, else the global m_maxConcurrent; an
absent queue behaves like one just created with the global limit. -/
def queueLimit (m : Mgr) (qid : Nat) : Nat :=
  match m.queues.find? (fun q => decide (q.qid = qid)) with
  | some q => if 0 < q.maxConcurrentQ then q.maxConcurrentQ else m.maxConcurrent
  | none => m.maxConcurrent

/-- The abstracted isQueueAllowed verdict for a queue id (line 386); a
freshly created queue has no schedule or quota, hence allowed. -/
def queueAllowed (m : Mgr) (qid : Nat) : Bool :=
  match m.queues.find? (fun q => decide (q.qid = qid)) with
  | some q => q.allowed
  | none => true

/-- Embedding of DownloaderTask::start at the state level (lines 289-332):
a no-op unless Idle; an invalid URL finishes with error, otherwise the
task enters Downloading. -/
def taskStart (t : MTask) : MTask :=
  if t.tstate = TState.idle then
    if t.urlValid then { t with tstate := TState.downloading }
    else { t with tstate := TState.finished }
  else t

/-- Embedding of DownloaderTask::resume at the state level (lines
1087-1102): a no-op unless Paused; otherwise set Idle and re-enter
start() directly — no admission check happens here. -/
def taskResume (t : MTask) : MTask :=
  if t.tstate = TState.paused then taskStart { t with tstate := TState.idle }
  else t

/-- The candidate loop of startQueued (lines 377-395), carrying the
running counter and the runningPerQueue hash: break once running reaches
the global limit; skip non-Idle tasks, the battery block, disallowed
queues, and queues at their limit; otherwise start the candidate and
bump both counters. -/
def startQueuedGo (m : Mgr) : Nat → List (Nat × Nat) → List MTask → List MTask
  | _, _, [] => []
  | running, perQ, t :: rest =>
    if m.maxConcurrent ≤ running then t :: rest
    else if t.tstate ≠ TState.idle then t :: startQueuedGo m running perQ rest
    else if m.pauseOnBattery && m.onBattery then t :: startQueuedGo m running perQ rest
    else if queueAllowed m t.queueName = false then t :: startQueuedGo m running perQ rest
    else if queueLimit m t.queueName ≤ lookupQ perQ t.queueName then
      t :: startQueuedGo m running perQ rest
    else
      taskStart t :: startQueuedGo m (running + 1) (bumpQ perQ t.queueName) rest

/-- Embedding of DownloadManager::startQueued (lines 364-397). -/
def startQueued (m : Mgr) : Mgr :=
  { m with tasks := startQueuedGo m (runningCount m.tasks) (buildPerQ m.tasks) m.tasks }

/-- Apply f to the idx-th task (DownloadModel::taskAt is positional). -/
def updateAt (idx : Nat) (f : MTask → MTask) : List MTask → List MTask
  | [] => []
  | t :: rest => if idx = 0 then f t :: rest else t :: updateAt (idx - 1) f rest

/-- Embedding of DownloadManager::resumeTask (lines 744-751): resume the
task at the index, then run admission (scheduleSave omitted). -/
def resumeTask (m : Mgr) (idx : Nat) : Mgr :=
  startQueued { m with tasks := updateAt idx taskResume m.tasks }

/-- Concrete manager used to refute the at-every-instant admission bound:
global limit 1, queue 0 with limit 1, one task already Downloading and a
second one Paused in the same queue. -/
def mgrAdmissionCx : Mgr :=
  { tasks :=
      [ { tstate := TState.downloading, queueName := 0, urlValid := true },
        { tstate := TState.paused, queueName := 0, urlValid := true } ],
    maxConcurrent := 1,
    queues := [ { qid := 0, maxConcurrentQ := 1, allowed := true } ],
    pauseOnBattery := false,
    onBattery := false }

/-- Concrete manager used by the admission-bound witness. -/
def mgrAdmissionW : Mgr :=
  { tasks :=
      [ { tstate := TState.idle, queueName := 0, urlValid := true },
        { tstate := TState.idle, queueName := 0, urlValid := true } ],
    maxConcurrent := 1,
    queues := [ { qid := 0, maxConcurrentQ := 1, allowed := true } ],
    pauseOnBattery := false,
    onBattery := false }

/-- Concrete mirror state used to refute the validator-clearing claim: the
next entry is the empty string, which is an invalid QUrl. -/
def mirrorCx : MirrorState :=
  { mirrors := [ { str := "http a", valid := true }, { str := "", valid := false } ],
    index := 0,
    url := "http a",
    etag := "tag",
    lastModified := "lm" }

/-- Concrete progress state (single stream resumed with a 1000-byte temp)
used to refute monotonicity of totalDownloaded. -/
def progressCx : ProgressState :=
  { singleWritten := 1000, segDownloaded := [] }

/-! # Theorems -/

/-- Claim C10: with schedule disabled the window test always passes; with
it enabled, equal start and end minutes mean always within the window,
start < end means within iff start <= current < end, and start > end
wraps past midnight, i.e. within iff current >= start or current < end. -/
theorem schedule_window_semantics (startM endM current : Nat) :
    (isWithinSchedule false startM endM current = true)
    ∧ (startM = endM → isWithinSchedule true startM endM current = true)
    ∧ (startM < endM →
        (isWithinSchedule true startM endM current = true
          ↔ (startM ≤ current ∧ current < endM)))
    ∧ (endM < startM →
        (isWithinSchedule true startM endM current = true
          ↔ (startM ≤ current ∨ current < endM))) := by
  refine ⟨by simp [isWithinSchedule], ?_, ?_, ?_⟩
  · intro h
    simp [isWithinSchedule, h]
  · intro h
    have hne : startM ≠ endM := Nat.ne_of_lt h
    simp [isWithinSchedule, hne, h]
  · intro h
    have hne : startM ≠ endM := Nat.ne_of_gt h
    have hnlt : ¬ (startM < endM) := by omega
    simp [isWithinSchedule, hne, hnlt]

/-- Witness for schedule_window_semantics at a concrete window. -/
theorem schedule_window_semantics_witness :
    isWithinSchedule true 600 1200 615 = true ↔ (600 ≤ 615 ∧ 615 < 1200) :=
  (schedule_window_semantics 600 1200 615).2.2.1 (by decide)

/-- Claim C5: each run of the throttled write processor computes
allowed = maxSpeed * elapsedInWindow/1000 - bytesInWindow (the whole
buffer when the cap is 0); when allowed <= 0 it writes nothing and
reschedules in ~50 ms; otherwise it writes exactly min(allowed, buffer
length) bytes, adds them to the window counter, restarts the window when
it is >= 1000 ms old, and reschedules in ~10 ms whenever the buffer
remains non-empty. -/
theorem throttle_processor_semantics (maxSpeed elapsedMsIn throttleBytes bufferLen : Nat)
    (hbuf : 0 < bufferLen) :
    (maxSpeed = 0 →
      throttleAllowed maxSpeed (throttleElapsed elapsedMsIn) throttleBytes bufferLen
        = (bufferLen : Int))
    ∧ (throttleAllowed maxSpeed (throttleElapsed elapsedMsIn) throttleBytes bufferLen ≤ 0 →
        (processBuffer maxSpeed elapsedMsIn throttleBytes bufferLen).written = 0
        ∧ (processBuffer maxSpeed elapsedMsIn throttleBytes bufferLen).bufferLen = bufferLen
        ∧ (processBuffer maxSpeed elapsedMsIn throttleBytes bufferLen).throttleBytes
            = throttleBytes
        ∧ (processBuffer maxSpeed elapsedMsIn throttleBytes bufferLen).rescheduleMs = some 50)
    ∧ (0 < throttleAllowed maxSpeed (throttleElapsed elapsedMsIn) throttleBytes bufferLen →
        (processBuffer maxSpeed elapsedMsIn throttleBytes bufferLen).written
          = min (throttleAllowed maxSpeed (throttleElapsed elapsedMsIn)
                  throttleBytes bufferLen).toNat bufferLen
        ∧ (processBuffer maxSpeed elapsedMsIn throttleBytes bufferLen).bufferLen
            = bufferLen - (processBuffer maxSpeed elapsedMsIn throttleBytes bufferLen).written
        ∧ (throttleElapsed elapsedMsIn < 1000 →
            (processBuffer maxSpeed elapsedMsIn throttleBytes bufferLen).throttleBytes
              = throttleBytes
                + (processBuffer maxSpeed elapsedMsIn throttleBytes bufferLen).written
            ∧ (processBuffer maxSpeed elapsedMsIn throttleBytes bufferLen).windowRestarted
                = false)
        ∧ (1000 ≤ throttleElapsed elapsedMsIn →
            (processBuffer maxSpeed elapsedMsIn throttleBytes bufferLen).throttleBytes = 0
            ∧ (processBuffer maxSpeed elapsedMsIn throttleBytes bufferLen).windowRestarted
                = true)
        ∧ (0 < (processBuffer maxSpeed elapsedMsIn throttleBytes bufferLen).bufferLen →
            (processBuffer maxSpeed elapsedMsIn throttleBytes bufferLen).rescheduleMs
              = some 10)
        ∧ ((processBuffer maxSpeed elapsedMsIn throttleBytes bufferLen).bufferLen = 0 →
            (processBuffer maxSpeed elapsedMsIn throttleBytes bufferLen).rescheduleMs
              = none)) := by
  refine ⟨?_, ?_, ?_⟩
  · intro h
    simp [throttleAllowed, h]
  · intro h
    simp [processBuffer, if_pos h]
  · intro h
    have hnle : ¬ (throttleAllowed maxSpeed (throttleElapsed elapsedMsIn)
        throttleBytes bufferLen ≤ 0) := by omega
    refine ⟨?_, ?_, ?_, ?_, ?_, ?_⟩
    · simp [processBuffer, if_neg hnle]
    · simp [processBuffer, if_neg hnle]
    · intro hlt
      have hd : ¬ (1000 ≤ throttleElapsed elapsedMsIn) := by omega
      simp [processBuffer, if_neg hnle, hd]
    · intro hge
      simp [processBuffer, if_neg hnle, hge]
    · intro hpos
      simp only [processBuffer, if_neg hnle] at hpos
      have hne : ¬ (bufferLen - min (throttleAllowed maxSpeed (throttleElapsed elapsedMsIn)
          throttleBytes bufferLen).toNat bufferLen = 0) := by omega
      simp [processBuffer, if_neg hnle, hne]
    · intro hzero
      simp only [processBuffer, if_neg hnle] at hzero
      simp [processBuffer, if_neg hnle, hzero]

/-- Witness for throttle_processor_semantics: cap 100 B/s, 500 ms into the
window, 10 bytes already written, 200 bytes buffered; allowed is 40, so 40
bytes are written and a 10 ms retry is scheduled. -/
theorem throttle_processor_semantics_witness :
    (processBuffer 100 500 10 200).written
      = min (throttleAllowed 100 (throttleElapsed 500) 10 200).toNat 200 :=
  ((throttle_processor_semantics 100 500 10 200 (by decide)).2.2 (by decide)).1

/-- Claim C1: on a successful HEAD response the segmentation decision
follows the spec's table: missing or non-positive Content-Length gives a
single non-resumable stream; a valid Content-Length without
Accept-Ranges: bytes gives a single non-resumable stream; ranges accepted
with one configured segment gives a single stream with Range resume;
otherwise the effective segment count is 1 below 4 MiB, min(configured, 2)
below 32 MiB, min(configured, 4) below 128 MiB, and the configured count
from there on.  The fresh-task value of m_useRange is useRangeInitial. -/
theorem segmentation_decision_follows_table (clValid acceptRangesIsBytes hasExistingFile : Bool)
    (cl : Int) (segments : Nat) (hseg : 1 ≤ segments) :
    (clValid = false ∨ cl ≤ 0 →
      (headDecision clValid cl acceptRangesIsBytes segments useRangeInitial
          hasExistingFile).mode = StreamMode.single false false
      ∧ singleResumable (headDecision clValid cl acceptRangesIsBytes segments useRangeInitial
          hasExistingFile).mode = false)
    ∧ (clValid = true → 0 < cl → acceptRangesIsBytes = false →
        (headDecision clValid cl acceptRangesIsBytes segments useRangeInitial
            hasExistingFile).mode = StreamMode.single false hasExistingFile
        ∧ singleResumable (headDecision clValid cl acceptRangesIsBytes segments useRangeInitial
            hasExistingFile).mode = false)
    ∧ (clValid = true → 0 < cl → acceptRangesIsBytes = true → segments = 1 →
        (headDecision clValid cl acceptRangesIsBytes segments useRangeInitial
            hasExistingFile).mode = StreamMode.single true hasExistingFile)
    ∧ (clValid = true → 0 < cl → acceptRangesIsBytes = true → 1 < segments →
        (headDecision clValid cl acceptRangesIsBytes segments useRangeInitial
            hasExistingFile).mode = StreamMode.segmented
          (if cl < 4 * MiB then 1
           else if cl < 32 * MiB then min 2 segments
           else if cl < 128 * MiB then min 4 segments
           else segments)) := by
  refine ⟨?_, ?_, ?_, ?_⟩
  · intro h
    rcases h with h | h
    · simp [headDecision, singleResumable, h]
    · simp [headDecision, singleResumable, h]
  · intro h1 h2 h3
    have h2' : ¬ (cl ≤ 0) := by omega
    simp [headDecision, singleResumable, h1, h2', h3]
  · intro h1 h2 h3 h4
    have h2' : ¬ (cl ≤ 0) := by omega
    simp [headDecision, useRangeInitial, h1, h2', h3, h4]
  · intro h1 h2 h3 h4
    have h2' : ¬ (cl ≤ 0) := by omega
    have h4' : segments ≠ 1 := by omega
    simp [headDecision, useRangeInitial, h1, h2, h2', h3, h4']

/-- Witness for segmentation_decision_follows_table: a 5 MiB file with
ranges accepted and 8 configured segments is split into
min(configured, 2) = 2 segments. -/
theorem segmentation_decision_follows_table_witness :
    (headDecision true (5 * MiB) true 8 useRangeInitial false).mode
      = StreamMode.segmented 2 := by
  have h := (segmentation_decision_follows_table true true false (5 * MiB) 8
    (by decide)).2.2.2 rfl (by decide) rfl (by decide)
  simpa using h

/-- Claim C2 counterexample: a prior part file larger than the segment
length (here 4 MiB + 1 bytes in a 4 MiB segment of an 8 MiB total split in
two) is kept and its count clamped to the segment length, not removed and
restarted at 0 as the claim states. -/
theorem segment_part_reuse_counterexample :
    segInitState true true 4194305 (segLen 8388608 2 0) = (4194304, false)
    ∧ segInitState true true 4194305 (segLen 8388608 2 0) ≠ (0, true) := by decide

/-- Claim C2 (amended): segments are laid out as equal splits of total/N
with the last segment absorbing the remainder; when partial segments were
detected and the part file for segment i exists, its downloaded count
starts at min(part size, segment length) and the file is kept (in
particular, a part no larger than the segment keeps its exact size);
otherwise the stale part file is removed and the count starts at 0. -/
theorem segment_layout_and_part_reuse_amended (total segCount i : Nat)
    (h0 : 0 < segCount) (hle : segCount ≤ total)
    (anyPriorParts partFileExists : Bool) (partSize : Nat) :
    (segStart total segCount 0 = 0)
    ∧ (i + 1 < segCount → segEnd total segCount i + 1 = segStart total segCount (i + 1))
    ∧ (i + 1 < segCount → segLen total segCount i = total / segCount)
    ∧ (segEnd total segCount (segCount - 1) = total - 1)
    ∧ (anyPriorParts = true → partFileExists = true →
        segInitState anyPriorParts partFileExists partSize (segLen total segCount i)
          = (min partSize (segLen total segCount i), false))
    ∧ (anyPriorParts = true → partFileExists = true →
        partSize ≤ segLen total segCount i →
        (segInitState anyPriorParts partFileExists partSize (segLen total segCount i)).1
          = partSize)
    ∧ (anyPriorParts = false ∨ partFileExists = false →
        segInitState anyPriorParts partFileExists partSize (segLen total segCount i)
          = (0, true)) := by
  have hq : 1 ≤ total / segCount := (Nat.one_le_div_iff h0).mpr hle
  refine ⟨by simp [segStart], ?_, ?_, by simp [segEnd], ?_, ?_, ?_⟩
  · intro hi
    have hne : i ≠ segCount - 1 := by omega
    have hmul : (i + 1) * (total / segCount) = i * (total / segCount) + total / segCount :=
      Nat.succ_mul i (total / segCount)
    have hpos : 0 < (i + 1) * (total / segCount) := by
      calc 0 < 1 * 1 := by omega
        _ ≤ (i + 1) * (total / segCount) := Nat.mul_le_mul (by omega) hq
    simp only [segEnd, segStart, if_neg hne]
    omega
  · intro hi
    have hne : i ≠ segCount - 1 := by omega
    have hmul : (i + 1) * (total / segCount) = i * (total / segCount) + total / segCount :=
      Nat.succ_mul i (total / segCount)
    simp only [segLen, segEnd, segStart, if_neg hne]
    omega
  · intro ha hp
    simp [segInitState, ha, hp]
  · intro ha hp hle2
    simp [segInitState, ha, hp, Nat.min_eq_left hle2]
  · intro h
    rcases h with h | h <;> simp [segInitState, h]

/-- Witness for segment_layout_and_part_reuse_amended: an 8 MiB total in
two segments with a 100-byte prior part keeps the 100 bytes. -/
theorem segment_layout_and_part_reuse_amended_witness :
    (segInitState true true 100 (segLen 8388608 2 0)).1 = 100 :=
  (segment_layout_and_part_reuse_amended 8388608 2 0 (by decide) (by decide)
    true true 100).2.2.2.2.2.1 rfl rfl (by decide)

/-- Claim C3 counterexample: cancel() on a Downloading task first sets
m_state = Canceled and then (via cleanup(true)) emits finished(false), so
a finished signal is emitted with the task already in the Canceled state
— refuting the claim that no finished signal is ever emitted after the
task has entered Canceled. -/
theorem finished_after_canceled_counterexample :
    (⟨Sig.finishedSig false, TState.canceled⟩ : Emit)
      ∈ (cancelOp { tstate := TState.downloading, anyError := false }).2
    ∧ (cancelOp { tstate := TState.downloading, anyError := false }).1.tstate
        = TState.canceled := by decide

/-- Claim C3 (amended): the only finished signal emitted after the task
enters Canceled is the single finished(false) emitted synchronously by
cancel() itself; once the task is in Canceled, every further operation —
a second cancel, pause, start, resume, the single-stream and segment
reply-finished handlers, and the segment-completion check — leaves the
task unchanged and emits nothing; and the manager's per-task finished
handler returns before any handling while bulk cancellation is in
progress. -/
theorem finished_after_canceled_amended (t : CTask) (u rm re rn rf mergeOk : Bool)
    (segs : List (Nat × Nat)) (st : StateStr) (adv : Bool) (a b c d e : Int) :
    (t.tstate = TState.canceled →
        cancelOp t = (t, []) ∧ pauseOp t = (t, []) ∧ startOp t u = (t, [])
        ∧ resumeOp t u = (t, [])
        ∧ singleFinishedOp t rm re rn rf = (t, [])
        ∧ segmentFinishedOp t rm re segs mergeOk = (t, [])
        ∧ onSegmentFinishedOp t segs mergeOk = (t, []))
    ∧ (t.tstate ≠ TState.finished → t.tstate ≠ TState.canceled →
        (cancelOp t).1.tstate = TState.canceled
        ∧ (cancelOp t).2 = [⟨Sig.stateChangedSig, TState.canceled⟩,
                            ⟨Sig.finishedSig false, TState.canceled⟩])
    ∧ onTaskFinishedWrapper true st adv a b c d e = FinishOutcome.ignoredBulk := by
  refine ⟨?_, ?_, by simp [onTaskFinishedWrapper]⟩
  · intro h
    refine ⟨by simp [cancelOp, h], by simp [pauseOp, h], by simp [startOp, h],
      by simp [resumeOp, h], ?_, ?_, by simp [onSegmentFinishedOp, h]⟩
    · cases rm with
      | false => simp [singleFinishedOp]
      | true => simp [singleFinishedOp, h]
    · cases rm with
      | false => simp [segmentFinishedOp]
      | true => simp [segmentFinishedOp, h]
  · intro h1 h2
    simp [cancelOp, h1, h2]

/-- Witness for finished_after_canceled_amended: a canceled task is left
untouched by a second cancel. -/
theorem finished_after_canceled_amended_witness :
    cancelOp { tstate := TState.canceled, anyError := false }
      = ({ tstate := TState.canceled, anyError := false }, []) :=
  ((finished_after_canceled_amended { tstate := TState.canceled, anyError := false }
    false false false false false false [] StateStr.done false 0 0 0 0 0).1 rfl).1

/-- Claim C6 counterexample: with mirror list [valid, invalid-URL entry]
(the second entry is the empty string, an invalid QUrl), advanceMirror()
succeeds yet the resume validators are not cleared — refuting the claim
that success always clears ETag and Last-Modified. -/
theorem mirror_failover_counterexample :
    (advanceMirror mirrorCx).1 = true
    ∧ (advanceMirror mirrorCx).2.etag ≠ ""
    ∧ (advanceMirror mirrorCx).2.lastModified ≠ "" := by decide

/-- Claim C6 (amended): when a task finishes in the Error state outside of
bulk cancellation, a successful advanceMirror() leads to an immediate
restart, and the resume validators are cleared exactly when the next
mirror entry is a valid URL (they are kept when it is not); when
advanceMirror() fails, with maxRetries and delaySec taken from the task
overrides when >= 0 else from the manager defaults, attempts < maxRetries
schedules a restart after delaySec with the attempt counter incremented,
and otherwise the error is final. -/
theorem mirror_failover_amended (ms : MirrorState) (tRM tRD mRM mRD att : Int) :
    ((advanceMirror ms).1 = true →
        onTaskFinishedWrapper false StateStr.error (advanceMirror ms).1 tRM tRD mRM mRD att
          = FinishOutcome.errorMirrorRestart)
    ∧ ((advanceMirror ms).1 = true →
        (ms.mirrors.getD (ms.index + 1) { str := "", valid := false }).valid = true →
        (advanceMirror ms).2.etag = "" ∧ (advanceMirror ms).2.lastModified = "")
    ∧ ((advanceMirror ms).1 = true →
        (ms.mirrors.getD (ms.index + 1) { str := "", valid := false }).valid = false →
        (advanceMirror ms).2.etag = ms.etag
        ∧ (advanceMirror ms).2.lastModified = ms.lastModified)
    ∧ ((advanceMirror ms).1 = false →
        onTaskFinishedWrapper false StateStr.error (advanceMirror ms).1 tRM tRD mRM mRD att
          = (if att < (if 0 ≤ tRM then tRM else mRM)
             then FinishOutcome.errorRetryScheduled (att + 1) (if 0 ≤ tRD then tRD else mRD)
             else FinishOutcome.errorFinal)) := by
  refine ⟨?_, ?_, ?_, ?_⟩
  · intro h
    rw [h]
    simp [onTaskFinishedWrapper]
  · intro h hv
    simp only [List.getD, List.get?_eq_getElem?] at hv
    by_cases he : ms.mirrors.isEmpty = true
    · simp [advanceMirror, he] at h
    · by_cases hl : ms.mirrors.length ≤ ms.index + 1
      · simp [advanceMirror, he, hl] at h
      · simp [advanceMirror, he, hl, hv]
  · intro h hv
    simp only [List.getD, List.get?_eq_getElem?] at hv
    by_cases he : ms.mirrors.isEmpty = true
    · simp [advanceMirror, he] at h
    · by_cases hl : ms.mirrors.length ≤ ms.index + 1
      · simp [advanceMirror, he, hl] at h
      · simp [advanceMirror, he, hl, hv]
  · intro h
    rw [h]
    simp [onTaskFinishedWrapper]

/-- Witness for mirror_failover_amended: advancing onto a valid mirror
entry clears the ETag validator. -/
theorem mirror_failover_amended_witness :
    (advanceMirror { mirrors := [ { str := "a", valid := true },
                                  { str := "b", valid := true } ],
                     index := 0, url := "a", etag := "t", lastModified := "l" }).2.etag
      = "" :=
  ((mirror_failover_amended { mirrors := [ { str := "a", valid := true },
                                           { str := "b", valid := true } ],
                              index := 0, url := "a", etag := "t", lastModified := "l" }
    0 0 0 0 0).2.1 (by decide) (by decide)).1

/-- Appending ".part" changes a string (the temp sibling is never the
file itself). -/
theorem append_part_ne (s : String) : s ++ ".part" ≠ s := by
  intro h
  have hlen := congrArg String.length h
  have h5 : (".part" : String).length = 5 := rfl
  rw [String.length_append, h5] at hlen
  omega

/-- Appending ".part" never yields the empty string. -/
theorem append_part_ne_empty (s : String) : s ++ ".part" ≠ "" := by
  intro h
  have hlen := congrArg String.length h
  have h5 : (".part" : String).length = 5 := rfl
  have h0 : ("" : String).length = 0 := rfl
  rw [String.length_append, h5, h0] at hlen
  omega

/-- Claim C7 counterexample: when the single-stream write mode targeted
the final path directly (no ".part" sibling existed and the final file
already existed, so m_useSingleTemp is false and m_singleTempPath equals
m_filePath), cancel() from Downloading removes the file at the final path
— refuting the claim that cancel never deletes the file at the final
path. -/
theorem cancel_file_removal_counterexample :
    "final.bin" ∈ (cancelRemovals TState.downloading []
        (useSingleTempOf false true)
        (singleTempPathOf "final.bin" false true) "final.bin").2 := by decide

/-- Claim C7 (amended): cancel() is a no-op in the terminal states
(Finished, Canceled); from any other state it sets the state to Canceled
and deletes every segment part file; when the temp write mode is in
effect (a ".part" sibling existed or the final file did not exist) it
additionally deletes the ".part" temp — which is distinct from the final
path, so the final file survives; but in direct-write mode
(no ".part" sibling and the final file existed) it deletes the file at
the final path itself. -/
theorem cancel_file_removal_amended (st : TState) (segPaths : List String)
    (hasTemp hasMain : Bool) (filePath : String)
    (hfp : filePath ∉ segPaths) :
    ((st = TState.finished ∨ st = TState.canceled) →
       cancelRemovals st segPaths (useSingleTempOf hasTemp hasMain)
         (singleTempPathOf filePath hasTemp hasMain) filePath = (st, []))
    ∧ (st ≠ TState.finished → st ≠ TState.canceled →
        (cancelRemovals st segPaths (useSingleTempOf hasTemp hasMain)
            (singleTempPathOf filePath hasTemp hasMain) filePath).1 = TState.canceled
        ∧ (∀ p ∈ segPaths,
            p ∈ (cancelRemovals st segPaths (useSingleTempOf hasTemp hasMain)
                  (singleTempPathOf filePath hasTemp hasMain) filePath).2)
        ∧ (useSingleTempOf hasTemp hasMain = true →
            filePath ++ ".part"
                ∈ (cancelRemovals st segPaths (useSingleTempOf hasTemp hasMain)
                    (singleTempPathOf filePath hasTemp hasMain) filePath).2
            ∧ filePath ∉ (cancelRemovals st segPaths (useSingleTempOf hasTemp hasMain)
                  (singleTempPathOf filePath hasTemp hasMain) filePath).2)
        ∧ (useSingleTempOf hasTemp hasMain = false →
            filePath ∈ (cancelRemovals st segPaths (useSingleTempOf hasTemp hasMain)
                  (singleTempPathOf filePath hasTemp hasMain) filePath).2))
    ∧ (useSingleTempOf hasTemp hasMain = false ↔ (hasTemp = false ∧ hasMain = true)) := by
  refine ⟨?_, ?_, ?_⟩
  · intro h
    simp only [cancelRemovals, if_pos h]
  · intro h1 h2
    have hcond : ¬ (st = TState.finished ∨ st = TState.canceled) := by
      intro h
      rcases h with h | h
      · exact h1 h
      · exact h2 h
    refine ⟨by simp [cancelRemovals, hcond], ?_, ?_, ?_⟩
    · intro p hp
      simp [cancelRemovals, hcond, cleanupRemovals, hp]
    · intro hu
      have hstp : singleTempPathOf filePath hasTemp hasMain = filePath ++ ".part" := by
        simp [singleTempPathOf, hu]
      have hne : ¬ (filePath ++ ".part" = "") := append_part_ne_empty filePath
      constructor
      · simp [cancelRemovals, hcond, cleanupRemovals, hstp, hu, hne]
      · simp only [cancelRemovals, if_neg hcond, cleanupRemovals, hstp, hu]
        simp only [hne, decide_eq_true_eq, decide_eq_false_iff_not, not_false_iff]
        intro hmem
        rw [List.mem_append] at hmem
        rcases hmem with hmem | hmem
        · exact hfp hmem
        · simp only [if_pos, Bool.true_and, Bool.not_eq_true] at hmem
          have : filePath ∈ [filePath ++ ".part"] := by
            simpa [decide_eq_false hne] using hmem
          simp only [List.mem_singleton] at this
          exact (append_part_ne filePath) this.symm
    · intro hu
      simp [cancelRemovals, hcond, cleanupRemovals, hu]
  · constructor
    · intro h
      rcases hasTemp with _ | _ <;> rcases hasMain with _ | _ <;>
        simp_all [useSingleTempOf]
    · intro h
      simp [useSingleTempOf, h.1, h.2]

/-- Witness for cancel_file_removal_amended: in temp-write mode the final
path is not among the files cancel removes. -/
theorem cancel_file_removal_amended_witness :
    "f.bin" ∉ (cancelRemovals TState.downloading [] (useSingleTempOf true true)
        (singleTempPathOf "f.bin" true true) "f.bin").2 :=
  (((cancel_file_removal_amended TState.downloading [] true true "f.bin"
    (by simp)).2.1 (by decide) (by decide)).2.2.1 (by decide)).2

/-- Sums never decrease under a bumpAt write. -/
theorem sum_bumpAt_ge (l : List Nat) (i w : Nat) : l.sum ≤ (bumpAt l i w).sum := by
  induction l generalizing i with
  | nil => simp [bumpAt]
  | cons v rest ih =>
    cases i with
    | zero => simp [bumpAt]
    | succ i =>
      simp only [bumpAt, List.sum_cons]
      exact Nat.add_le_add_left (ih i) v

/-- Claim C8 counterexample: a single-stream task resuming on a
1000-byte temp observes totalDownloaded = 1000, and the resume-downgrade
path (HTTP 200 while resuming) truncates the temp and resets the written
counter to 0, so the next observation of totalDownloaded is 0 — refuting
monotonicity across the resume-downgrade path. -/
theorem total_downloaded_monotone_counterexample :
    ¬ (totalDownloaded progressCx
        ≤ totalDownloaded (singleMetaData true 200 1000 progressCx).1) := by decide

/-- Claim C8 (amended): totalDownloaded is non-decreasing under the
processor writes (single-stream and per-segment); but the single-stream
resume-downgrade (HTTP 200 while resuming) and resume-rejected
(HTTP >= 400 while resuming) paths reset the single-stream written
counter to 0, so the metaDataChanged handler never increases and can
strictly decrease totalDownloaded. -/
theorem total_downloaded_monotone_amended (s : ProgressState)
    (w i status existingSize : Nat) :
    (totalDownloaded s ≤ totalDownloaded (processWriteSingle w s))
    ∧ (totalDownloaded s ≤ totalDownloaded (processWriteSegment i w s))
    ∧ (400 ≤ status →
        (singleMetaData true status existingSize s).1.singleWritten = 0)
    ∧ (status < 400 → status ≠ 206 →
        (singleMetaData true status existingSize s).1.singleWritten = 0)
    ∧ (totalDownloaded (singleMetaData true status existingSize s).1
        ≤ totalDownloaded s) := by
  refine ⟨?_, ?_, ?_, ?_, ?_⟩
  · simp [totalDownloaded, processWriteSingle]
  · simp only [totalDownloaded, processWriteSegment]
    exact Nat.add_le_add_right (sum_bumpAt_ge s.segDownloaded i w) s.singleWritten
  · intro h
    simp [singleMetaData, h]
  · intro h1 h2
    have hn : ¬ (400 ≤ status) := by omega
    simp [singleMetaData, hn, h2]
  · by_cases h1 : 400 ≤ status
    · simp [singleMetaData, h1, totalDownloaded]
    · by_cases h2 : status = 206
      · simp [singleMetaData, h1, h2, totalDownloaded]
      · simp [singleMetaData, h1, h2, totalDownloaded]

/-- Witness for total_downloaded_monotone_amended: a 10-byte write keeps
totalDownloaded non-decreasing. -/
theorem total_downloaded_monotone_amended_witness :
    totalDownloaded progressCx ≤ totalDownloaded (processWriteSingle 10 progressCx) :=
  (total_downloaded_monotone_amended progressCx 10 0 206 0).1

/-- A name returned by the findFreeName loop is free: the loop only stops
at a candidate whose existsCandidate test fails. -/
theorem findFreeName_some_spec (fs : List String) (base suffix : String) :
    ∀ fuel i c, findFreeName fs base suffix i fuel = some c →
      ∃ n, i ≤ n ∧ n < i + fuel ∧ c = candidateName base suffix n
        ∧ existsCandidate fs c = false
        ∧ ∀ m, i ≤ m → m < n → existsCandidate fs (candidateName base suffix m) = true := by
  intro fuel
  induction fuel with
  | zero =>
    intro i c h
    simp [findFreeName] at h
  | succ fuel ih =>
    intro i c h
    simp only [findFreeName] at h
    by_cases hex : existsCandidate fs (candidateName base suffix i) = true
    · rw [if_pos hex] at h
      obtain ⟨n, h1, h2, h3, h4, h5⟩ := ih (i + 1) c h
      refine ⟨n, by omega, by omega, h3, h4, ?_⟩
      intro m hm1 hm2
      rcases Nat.eq_or_lt_of_le hm1 with he | hl
      · rw [← he]
        exact hex
      · exact h5 m hl hm2
    · rw [if_neg hex] at h
      have hc : candidateName base suffix i = c := by
        simpa using h
      refine ⟨i, Nat.le_refl i, by omega, hc.symm, ?_, ?_⟩
      · rw [← hc]
        simpa using hex
      · intro m hm1 hm2
        omega

/-- When the findFreeName loop exhausts its fuel, every candidate index it
visited was taken. -/
theorem findFreeName_none_spec (fs : List String) (base suffix : String) :
    ∀ fuel i, findFreeName fs base suffix i fuel = none →
      ∀ m, i ≤ m → m < i + fuel → existsCandidate fs (candidateName base suffix m) = true := by
  intro fuel
  induction fuel with
  | zero =>
    intro i h m hm1 hm2
    omega
  | succ fuel ih =>
    intro i h m hm1 hm2
    simp only [findFreeName] at h
    by_cases hex : existsCandidate fs (candidateName base suffix i) = true
    · rw [if_pos hex] at h
      rcases Nat.eq_or_lt_of_le hm1 with he | hl
      · rw [← he]
        exact hex
      · exact ih (i + 1) h m hl (by omega)
    · rw [if_neg hex] at h
      simp at h

/-- uniqueFilePath returns a free path unchanged. -/
theorem uniqueFilePath_of_free (fs : List String) (path : String)
    (h : existsCandidate fs path = false) : uniqueFilePath fs path = path := by
  unfold uniqueFilePath
  by_cases hp : path = ""
  · rw [if_pos hp]
  · rw [if_neg hp, if_pos h]

/-- uniqueFilePath on a taken path follows the findFreeName result. -/
theorem uniqueFilePath_of_taken (fs : List String) (path : String)
    (hp : path ≠ "") (hex : existsCandidate fs path = true) :
    uniqueFilePath fs path
      = (match findFreeName fs (completeBaseName path) (completeSuffix path) 1 9999 with
         | some cand => cand
         | none => path) := by
  unfold uniqueFilePath
  rw [if_neg hp, if_neg (by simp [hex])]

/-- Claim C9: the unique-path filter is idempotent over a fixed
filesystem state; it returns the input unchanged when neither it nor its
".part" sibling exists; and otherwise it either returns the " (n)"
variant for the smallest free n below the 10000 sentinel, or — when every
such n is taken — falls back to the input. -/
theorem unique_path_filter_spec (fs : List String) (path : String) :
    uniqueFilePath fs (uniqueFilePath fs path) = uniqueFilePath fs path
    ∧ (existsCandidate fs path = false → uniqueFilePath fs path = path)
    ∧ (path ≠ "" → existsCandidate fs path = true →
        (∃ n, 1 ≤ n ∧ n < 10000
          ∧ uniqueFilePath fs path
              = candidateName (completeBaseName path) (completeSuffix path) n
          ∧ existsCandidate fs (uniqueFilePath fs path) = false
          ∧ ∀ m, 1 ≤ m → m < n →
              existsCandidate fs
                (candidateName (completeBaseName path) (completeSuffix path) m) = true)
        ∨ (uniqueFilePath fs path = path
          ∧ ∀ m, 1 ≤ m → m < 10000 →
              existsCandidate fs
                (candidateName (completeBaseName path) (completeSuffix path) m) = true)) := by
  refine ⟨?_, fun h => uniqueFilePath_of_free fs path h, ?_⟩
  · by_cases hp : path = ""
    · subst hp
      simp [uniqueFilePath]
    · by_cases hex : existsCandidate fs path = true
      · rw [uniqueFilePath_of_taken fs path hp hex]
        cases hfind : findFreeName fs (completeBaseName path) (completeSuffix path) 1 9999 with
        | some cand =>
          obtain ⟨n, _, _, _, hfree, _⟩ :=
            findFreeName_some_spec fs (completeBaseName path) (completeSuffix path)
              9999 1 cand hfind
          exact uniqueFilePath_of_free fs cand hfree
        | none =>
          rw [uniqueFilePath_of_taken fs path hp hex, hfind]
      · have hex' : existsCandidate fs path = false := by
          simpa using hex
        rw [uniqueFilePath_of_free fs path hex', uniqueFilePath_of_free fs path hex']
  · intro hp hex
    rw [uniqueFilePath_of_taken fs path hp hex]
    cases hfind : findFreeName fs (completeBaseName path) (completeSuffix path) 1 9999 with
    | some cand =>
      obtain ⟨n, h1, h2, h3, h4, h5⟩ :=
        findFreeName_some_spec fs (completeBaseName path) (completeSuffix path)
          9999 1 cand hfind
      exact Or.inl ⟨n, h1, by omega, h3, h4, h5⟩
    | none =>
      refine Or.inr ⟨rfl, ?_⟩
      intro m hm1 hm2
      exact findFreeName_none_spec fs (completeBaseName path) (completeSuffix path)
        9999 1 hfind m hm1 (by omega)

/-- Witness for unique_path_filter_spec: a path that is free on the
(empty) filesystem is returned unchanged. -/
theorem unique_path_filter_spec_witness :
    uniqueFilePath ([] : List String) ("a.txt") = ("a.txt") :=
  (unique_path_filter_spec ([] : List String) ("a.txt")).2.1 (by decide)

theorem runningCount_cons (t : MTask) (ts : List MTask) :
    runningCount (t :: ts)
      = (if isRunningTask t = true then 1 else 0) + runningCount ts := by
  simp only [runningCount, List.filter_cons]
  by_cases h : isRunningTask t = true
  · simp [h, Nat.add_comm]
  · simp [h]

theorem runningInQueue_cons (qid : Nat) (t : MTask) (ts : List MTask) :
    runningInQueue (t :: ts) qid
      = (if inQueueRunning qid t = true then 1 else 0) + runningInQueue ts qid := by
  simp only [runningInQueue, List.filter_cons]
  by_cases h : inQueueRunning qid t = true
  · simp [h, Nat.add_comm]
  · simp [h]

theorem lookupQ_bumpQ_same (l : List (Nat × Nat)) (q : Nat) :
    lookupQ (bumpQ l q) q = lookupQ l q + 1 := by
  induction l with
  | nil => simp [bumpQ, lookupQ]
  | cons p rest ih =>
    obtain ⟨k, v⟩ := p
    by_cases h : k = q
    · simp [bumpQ, lookupQ, h]
    · simp [bumpQ, lookupQ, h, ih]

theorem lookupQ_bumpQ_ne (l : List (Nat × Nat)) (qb q : Nat) (h : qb ≠ q) :
    lookupQ (bumpQ l qb) q = lookupQ l q := by
  induction l with
  | nil => simp [bumpQ, lookupQ, h]
  | cons p rest ih =>
    obtain ⟨k, v⟩ := p
    by_cases hk : k = qb
    · simp [bumpQ, lookupQ, hk, h]
    · simp [bumpQ, lookupQ, hk, ih]

/-- The runningPerQueue hash built by the first loop of startQueued reads
back exactly the running-in-queue counts. -/
theorem lookupQ_buildPerQ (ts : List MTask) (qid : Nat) :
    lookupQ (buildPerQ ts) qid = runningInQueue ts qid := by
  induction ts with
  | nil => rfl
  | cons t rest ih =>
    rw [runningInQueue_cons]
    simp only [buildPerQ]
    by_cases hr : isRunningTask t = true
    · rw [if_pos hr]
      by_cases hq : t.queueName = qid
      · have hin : inQueueRunning qid t = true := by
          simp [inQueueRunning, hr, hq]
        rw [hq, lookupQ_bumpQ_same, ih]
        simp [hin, Nat.add_comm]
      · have hin : inQueueRunning qid t = false := by
          simp [inQueueRunning, hq]
        rw [lookupQ_bumpQ_ne _ _ _ hq, ih]
        simp [hin]
    · have hr' : isRunningTask t = false := by simpa using hr
      have hin : inQueueRunning qid t = false := by
        simp [inQueueRunning, hr']
      rw [if_neg hr, ih]
      simp [hin]

theorem taskStart_queueName (t : MTask) : (taskStart t).queueName = t.queueName := by
  simp only [taskStart]
  split
  · split <;> rfl
  · rfl

/-- The candidate loop of startQueued never raises the running count above
the slack left under the global limit: it starts a task only while the
carried counter is below m_maxConcurrent, and each start increments the
counter. -/
theorem startQueuedGo_global (m : Mgr) :
    ∀ rest running perQ,
      runningCount (startQueuedGo m running perQ rest)
        ≤ runningCount rest + (m.maxConcurrent - running) := by
  intro rest
  induction rest with
  | nil =>
    intro running perQ
    simp [startQueuedGo]
  | cons t rest ih =>
    intro running perQ
    simp only [startQueuedGo]
    by_cases h1 : m.maxConcurrent ≤ running
    · rw [if_pos h1]
      exact Nat.le_add_right _ _
    · rw [if_neg h1]
      by_cases h2 : t.tstate ≠ TState.idle
      · rw [if_pos h2, runningCount_cons, runningCount_cons]
        have := ih running perQ
        omega
      · rw [if_neg h2]
        by_cases h3 : (m.pauseOnBattery && m.onBattery) = true
        · rw [if_pos h3, runningCount_cons, runningCount_cons]
          have := ih running perQ
          omega
        · rw [if_neg h3]
          by_cases h4 : queueAllowed m t.queueName = false
          · rw [if_pos h4, runningCount_cons, runningCount_cons]
            have := ih running perQ
            omega
          · rw [if_neg h4]
            by_cases h5 : queueLimit m t.queueName ≤ lookupQ perQ t.queueName
            · rw [if_pos h5, runningCount_cons, runningCount_cons]
              have := ih running perQ
              omega
            · rw [if_neg h5, runningCount_cons, runningCount_cons]
              have hih := ih (running + 1) (bumpQ perQ t.queueName)
              have hct : (if isRunningTask (taskStart t) = true then 1 else 0) ≤ 1 := by
                split <;> omega
              have hidle : t.tstate = TState.idle := not_not.mp h2
              have hct0 : (if isRunningTask t = true then 1 else 0) = 0 := by
                simp [isRunningTask, hidle]
              omega

/-- The candidate loop of startQueued never raises any queue's running
count above the slack left under that queue's limit. -/
theorem startQueuedGo_perQueue (m : Mgr) (qid : Nat) :
    ∀ rest running perQ,
      runningInQueue (startQueuedGo m running perQ rest) qid
        ≤ runningInQueue rest qid + (queueLimit m qid - lookupQ perQ qid) := by
  intro rest
  induction rest with
  | nil =>
    intro running perQ
    simp [startQueuedGo]
  | cons t rest ih =>
    intro running perQ
    simp only [startQueuedGo]
    by_cases h1 : m.maxConcurrent ≤ running
    · rw [if_pos h1]
      exact Nat.le_add_right _ _
    · rw [if_neg h1]
      by_cases h2 : t.tstate ≠ TState.idle
      · rw [if_pos h2, runningInQueue_cons, runningInQueue_cons]
        have := ih running perQ
        omega
      · rw [if_neg h2]
        by_cases h3 : (m.pauseOnBattery && m.onBattery) = true
        · rw [if_pos h3, runningInQueue_cons, runningInQueue_cons]
          have := ih running perQ
          omega
        · rw [if_neg h3]
          by_cases h4 : queueAllowed m t.queueName = false
          · rw [if_pos h4, runningInQueue_cons, runningInQueue_cons]
            have := ih running perQ
            omega
          · rw [if_neg h4]
            by_cases h5 : queueLimit m t.queueName ≤ lookupQ perQ t.queueName
            · rw [if_pos h5, runningInQueue_cons, runningInQueue_cons]
              have := ih running perQ
              omega
            · rw [if_neg h5, runningInQueue_cons, runningInQueue_cons]
              have hidle : t.tstate = TState.idle := not_not.mp h2
              by_cases hq : t.queueName = qid
              · rw [hq]
                rw [hq] at h5
                have hih := ih (running + 1) (bumpQ perQ qid)
                rw [lookupQ_bumpQ_same] at hih
                have hct : (if inQueueRunning qid (taskStart t) = true then 1 else 0) ≤ 1 := by
                  split <;> omega
                have hct0 : (if inQueueRunning qid t = true then 1 else 0) = 0 := by
                  simp [inQueueRunning, isRunningTask, hidle]
                omega
              · have hih := ih (running + 1) (bumpQ perQ t.queueName)
                rw [lookupQ_bumpQ_ne _ _ _ hq] at hih
                have hct0 : (if inQueueRunning qid t = true then 1 else 0) = 0 := by
                  simp [inQueueRunning, hq]
                have hct0' : (if inQueueRunning qid (taskStart t) = true then 1 else 0) = 0 := by
                  simp [inQueueRunning, taskStart_queueName, hq]
                omega

/-- Claim C4 counterexample: with global limit 1 and queue limit 1, one
task already Downloading and a second Paused, resumeTask on the paused
task calls resume(), which re-enters start() directly with no admission
check — afterwards two tasks are Downloading, violating both the global
and the per-queue bound. -/
theorem admission_bound_counterexample :
    ¬ (runningCount (resumeTask mgrAdmissionCx 1).tasks
          ≤ (resumeTask mgrAdmissionCx 1).maxConcurrent
       ∧ runningInQueue (resumeTask mgrAdmissionCx 1).tasks 0
           ≤ queueLimit (resumeTask mgrAdmissionCx 1) 0) := by decide

/-- Claim C4 (amended): the concurrency bounds are an invariant of
admission, not of every manager operation: whenever the number of
Downloading tasks is within globalMaxConcurrent and every queue is within
its effective limit (its own maxConcurrent when positive, else the global
limit), running startQueued preserves both bounds — startQueued never
starts a task beyond either limit.  resumeTask, resumeAll and togglePause
resume paused tasks unconditionally (resume() re-enters start() directly)
and can exceed both limits. -/
theorem admission_bound_amended (m : Mgr)
    (h1 : runningCount m.tasks ≤ m.maxConcurrent)
    (h2 : ∀ qid, runningInQueue m.tasks qid ≤ queueLimit m qid) :
    runningCount (startQueued m).tasks ≤ (startQueued m).maxConcurrent
    ∧ ∀ qid, runningInQueue (startQueued m).tasks qid ≤ queueLimit m qid := by
  constructor
  · have hgo := startQueuedGo_global m m.tasks (runningCount m.tasks) (buildPerQ m.tasks)
    simp only [startQueued]
    omega
  · intro qid
    have hgo := startQueuedGo_perQueue m qid m.tasks (runningCount m.tasks) (buildPerQ m.tasks)
    rw [lookupQ_buildPerQ] at hgo
    have hq := h2 qid
    simp only [startQueued]
    omega

/-- Witness for admission_bound_amended: on a manager with two idle tasks
and limit 1, admission keeps the running count within the limit. -/
theorem admission_bound_amended_witness :
    runningCount (startQueued mgrAdmissionW).tasks
      ≤ (startQueued mgrAdmissionW).maxConcurrent :=
  (admission_bound_amended mgrAdmissionW (by decide) (fun _ => Nat.zero_le _)).1

end Raad
